import Mathlib

/-!
Verification of the variant-analysis monitoring and result-export pipeline.

The development shallowly embeds:
* the wire data model of variant-analysis status snapshots and the
  monitor loop that polls them (modelled from the spec, since
  `variant-analysis-monitor.ts` and `variant-analysis-processor.ts` are
  only exercised by their tests here),
* the export pipeline of `export-results.ts` (source-faithful),
* the command-registration error boundary of `common/vscode/commands.ts`
  (source-faithful).

Asynchronous collaborators (status fetch, cancellation predicate, result
load) are passed in as explicit inputs; side effects are reified as
event/effect lists in the order the code performs them.
-/

/-- Wire per-repository analysis status (`analysis_status` in the API
payload; the values used by the test factories are `pending`,
`in_progress`, `succeeded`, `failed`). -/
inductive ApiRepoStatus where
  | pending
  | inProgress
  | succeeded
  | failed
deriving DecidableEq, Repr

/-- Wire top-level job status of a snapshot. -/
inductive ApiStatus where
  | inProgress
  | succeeded
  | failed
  | canceled
deriving DecidableEq, Repr

/-- Modelled from the spec: wire failure-reason codes of the status
payload (`failure_reason`), an enumeration per section 4.2's examples
(no-repos-queried, internal-error, rate-limited, unknown); the concrete
code set lives in `gh-api/variant-analysis.ts`, which is not in scope. -/
inductive WireFailureReason where
  | noReposQueried
  | internalError
  | rateLimited
  | unknownReason
deriving DecidableEq, Repr

/-- Modelled from the spec: the internal typed failure classification
produced by the failure-reason mapping (spec section 4.2). -/
inductive FailureClassification where
  | noReposQueried
  | internalError
  | rateLimited
  | unknownReason
deriving DecidableEq, Repr

/-- Internal per-repository analysis status of a `ScannedRepository`
(spec data model: Pending, InProgress, Succeeded, Failed). -/
inductive RepoTaskStatus where
  | pending
  | inProgress
  | succeeded
  | failed
deriving DecidableEq, Repr

/-- Internal top-level job status (spec data model: InProgress,
Succeeded, Failed, Canceled). -/
inductive JobStatus where
  | inProgress
  | succeeded
  | failed
  | canceled
deriving DecidableEq, Repr

/-- Repository identity and metadata as it appears in the wire payload
(`repository` object: id, full name, star count, last update). -/
structure WireRepository where
  id : Nat
  fullName : String
  stargazersCount : Option Nat
  updatedAt : Option String
deriving DecidableEq, Repr

/-- One entry of the wire `scanned_repositories` collection. -/
structure ApiScannedRepository where
  repository : WireRepository
  analysisStatus : ApiRepoStatus
  resultCount : Option Nat
  artifactSizeInBytes : Option Nat
deriving DecidableEq, Repr

/-- A status snapshot as returned by one status fetch
(`{status, failure_reason?, scanned_repositories}`). -/
structure ApiSnapshot where
  status : ApiStatus
  failureReason : Option WireFailureReason
  scannedRepositories : List ApiScannedRepository
deriving DecidableEq, Repr

/-- Internal repository identity/metadata after normalization. -/
structure RepositoryWithMetadata where
  id : Nat
  fullName : String
  stargazersCount : Option Nat
  updatedAt : Option String
deriving DecidableEq, Repr

/-- Internal `ScannedRepository`: one target repository within a job. -/
structure ScannedRepository where
  repository : RepositoryWithMetadata
  analysisStatus : RepoTaskStatus
  resultCount : Option Nat
  artifactSizeInBytes : Option Nat
deriving DecidableEq, Repr

/-- The query definition carried by a job (name, language, id). -/
structure QueryInfo where
  name : String
  language : String
  queryId : String
deriving DecidableEq, Repr

/-- Internal `VariantAnalysis` job value: identity, query definition,
overall status, optional failure classification and the scanned
repositories (optional, as in the shared type). -/
structure VariantAnalysis where
  id : Nat
  query : QueryInfo
  status : JobStatus
  failureReason : Option FailureClassification
  scannedRepos : Option (List ScannedRepository)
deriving DecidableEq, Repr

/-- Modelled from the spec: `processFailureReason(raw)` of
`variant-analysis-processor.ts` (not in scope) maps wire failure-reason
codes to the internal enumeration. -/
def processFailureReason : WireFailureReason → FailureClassification
  | .noReposQueried => .noReposQueried
  | .internalError => .internalError
  | .rateLimited => .rateLimited
  | .unknownReason => .unknownReason

/-- Modelled from the spec: normalization of a wire per-repository
analysis status into the internal enumeration. -/
def processRepoTaskStatus : ApiRepoStatus → RepoTaskStatus
  | .pending => .pending
  | .inProgress => .inProgress
  | .succeeded => .succeeded
  | .failed => .failed

/-- Modelled from the spec: normalization of the wire top-level status. -/
def processApiStatus : ApiStatus → JobStatus
  | .inProgress => .inProgress
  | .succeeded => .succeeded
  | .failed => .failed
  | .canceled => .canceled

/-- Modelled from the spec: `processScannedRepository(raw)` of
`variant-analysis-processor.ts` (not in scope) normalizes the wire
representation of one scanned repository into the internal shape. -/
def processScannedRepository (raw : ApiScannedRepository) : ScannedRepository :=
  { repository :=
      { id := raw.repository.id
        fullName := raw.repository.fullName
        stargazersCount := raw.repository.stargazersCount
        updatedAt := raw.repository.updatedAt }
    analysisStatus := processRepoTaskStatus raw.analysisStatus
    resultCount := raw.resultCount
    artifactSizeInBytes := raw.artifactSizeInBytes }

/-- Modelled from the spec: `processUpdatedVariantAnalysis(previousJob,
rawSnapshot)` of `variant-analysis-processor.ts` (not in scope) merges a
raw snapshot onto the previous in-memory job, producing a new immutable
job value (identity and query kept, status/failure/repositories taken
from the snapshot). -/
def processUpdatedVariantAnalysis (prev : VariantAnalysis) (snap : ApiSnapshot) :
    VariantAnalysis :=
  { id := prev.id
    query := prev.query
    status := processApiStatus snap.status
    failureReason := snap.failureReason.map processFailureReason
    scannedRepos := some (snap.scannedRepositories.map processScannedRepository) }

/-- Whether a wire per-repository status is terminal (succeeded or
failed). -/
def ApiRepoStatus.isTerminal : ApiRepoStatus → Bool
  | .succeeded => true
  | .failed => true
  | _ => false

/-- Whether a wire top-level status is terminal. -/
def ApiStatus.isTerminal : ApiStatus → Bool
  | .inProgress => false
  | _ => true

/-- Observable actions of one monitoring run: change-event emissions and
download triggers (the external
`codeQL.autoDownloadVariantAnalysisResult` command, invoked with the
processed repository and the processed job). -/
inductive MonitorEvent where
  | change (job : VariantAnalysis)
  | download (repo : ScannedRepository) (job : VariantAnalysis)
deriving DecidableEq, Repr

/-- Result of one monitoring run: the emitted events in order, and how
many status fetches were attempted. -/
structure MonitorResult where
  events : List MonitorEvent
  fetches : Nat
deriving DecidableEq, Repr

/-- Modelled from the spec: the delta of a snapshot — repositories in a
terminal analysis state that were not already reported as terminal,
keyed by repository id (spec section 4.2, "terminal now, and was not
already reported as terminal"). -/
def snapshotDelta (reported : List Nat) (snap : ApiSnapshot) :
    List ApiScannedRepository :=
  snap.scannedRepositories.filter
    (fun r => r.analysisStatus.isTerminal && !(reported.contains r.repository.id))

/-- Ids of a snapshot's delta entries. -/
def deltaIds (reported : List Nat) (snap : ApiSnapshot) : List Nat :=
  (snapshotDelta reported snap).map (fun r => r.repository.id)

/-- Events of one normal poll iteration: one download trigger per delta
entry in Succeeded state (in snapshot order, each with the processed
repository and the processed job), then exactly one change event with
the merged job state. -/
def iterationEvents (reported : List Nat) (snap : ApiSnapshot)
    (merged : VariantAnalysis) : List MonitorEvent :=
  ((snapshotDelta reported snap).filter
      (fun r => r.analysisStatus = ApiRepoStatus.succeeded)).map
    (fun r => MonitorEvent.download (processScannedRepository r) merged)
    ++ [MonitorEvent.change merged]

/-- Modelled from the spec: the job value emitted when a snapshot's
top-level status is a failure — the merged state marked Failed with the
typed failure classification (spec section 4.1, step 3). -/
def failedJobOf (job : VariantAnalysis) (snap : ApiSnapshot) : VariantAnalysis :=
  { processUpdatedVariantAnalysis job snap with
      status := JobStatus.failed
      failureReason := snap.failureReason.map processFailureReason }

/-- Modelled from the spec: the body of
`VariantAnalysisMonitor.monitorVariantAnalysis` (not in scope), per the
algorithm of spec section 4.1.  `fuel` is the remaining poll budget
(maximum attempt count), `cancels` the successive answers of the
cancellation predicate, `polls` the successive snapshot fetch responses
(an exhausted list means the fetch rejects, which ends monitoring), and
`reported` the ids of repositories already observed in a terminal state.
Each normal iteration first triggers downloads for the newly-succeeded
delta (in snapshot order) and then emits one change event. -/
def monitorLoop (fuel : Nat) (cancels : List Bool) (polls : List ApiSnapshot)
    (job : VariantAnalysis) (reported : List Nat) : MonitorResult :=
  match fuel with
  | 0 => ⟨[], 0⟩
  | fuel + 1 =>
    if cancels.headD false then ⟨[], 0⟩
    else
      match polls with
      | [] => ⟨[], 1⟩
      | snap :: rest =>
        if snap.status = ApiStatus.failed then
          ⟨[MonitorEvent.change (failedJobOf job snap)], 1⟩
        else
          let merged := processUpdatedVariantAnalysis job snap
          let evts := iterationEvents reported snap merged
          if snap.status.isTerminal then ⟨evts, 1⟩
          else
            let nxt := monitorLoop fuel cancels.tail rest merged
              (reported ++ deltaIds reported snap)
            ⟨evts ++ nxt.events, 1 + nxt.fetches⟩

/-- Modelled from the spec: entry point of one monitoring run
(`monitorVariantAnalysis`), starting with no repository yet reported as
terminal. -/
def monitorVariantAnalysis (job : VariantAnalysis) (cancels : List Bool)
    (polls : List ApiSnapshot) (fuel : Nat) : MonitorResult :=
  monitorLoop fuel cancels polls job []

/-- Repository ids of the download triggers of an event trace, in
trigger order. -/
def downloadIds (evts : List MonitorEvent) : List Nat :=
  evts.filterMap (fun e =>
    match e with
    | MonitorEvent.download r _ => some r.repository.id
    | MonitorEvent.change _ => none)

/-- The download-trigger events of a trace, in order. -/
def downloadEvents (evts : List MonitorEvent) : List MonitorEvent :=
  evts.filter (fun e =>
    match e with
    | MonitorEvent.download _ _ => true
    | MonitorEvent.change _ => false)

/-- The change events of a trace, in order. -/
def changeEvents (evts : List MonitorEvent) : List MonitorEvent :=
  evts.filter (fun e =>
    match e with
    | MonitorEvent.download _ _ => false
    | MonitorEvent.change _ => true)

/-- Ids of the repositories a snapshot reports as succeeded. -/
def succIds (s : ApiSnapshot) : Finset Nat :=
  ((s.scannedRepositories.filter
      (fun r => r.analysisStatus = ApiRepoStatus.succeeded)).map
    (fun r => r.repository.id)).toFinset

/-- Ids of the repositories that some snapshot of the run reports as
succeeded ("ever reach Succeeded over the run"). -/
def everSucceededIds (polls : List ApiSnapshot) : Finset Nat :=
  polls.foldr (fun s acc => succIds s ∪ acc) ∅

/-- A snapshot reports repository `n` as failed. -/
def failedIn (s : ApiSnapshot) (n : Nat) : Prop :=
  ∃ r ∈ s.scannedRepositories,
    r.repository.id = n ∧ r.analysisStatus = ApiRepoStatus.failed

instance (s : ApiSnapshot) (n : Nat) : Decidable (failedIn s n) := by
  unfold failedIn; infer_instance

/-- A snapshot reports repository `n` as succeeded. -/
def succeededIn (s : ApiSnapshot) (n : Nat) : Prop :=
  ∃ r ∈ s.scannedRepositories,
    r.repository.id = n ∧ r.analysisStatus = ApiRepoStatus.succeeded

instance (s : ApiSnapshot) (n : Nat) : Decidable (succeededIn s n) := by
  unfold succeededIn; infer_instance

/-- One rendered report file: name plus content lines
(`MarkdownFile` of markdown-generation). -/
structure MarkdownFile where
  fileName : String
  content : List String
deriving DecidableEq, Repr

/-- Modelled from the spec: the per-repository summary rows produced by
the renderer (`RepositorySummary` of `markdown-generation.ts`, not in
scope); only the result count is consumed by the description builder. -/
structure RepositorySummary where
  fullName : String
  resultCount : Option Nat
deriving DecidableEq, Repr

/-- Modelled from the spec: `pluralize(n, singular, plural)` of
`pure/word.ts` (not in scope) prefixes the count and uses the singular
form exactly when the count is 1. -/
def pluralize (n : Nat) (singular plural : String) : String :=
  toString n ++ " " ++ (if n = 1 then singular else plural)

/-- Description builder (`buildVariantAnalysisGistDescription` of
export-results): the repository-count parenthetical is dropped when
there are no summaries, mirroring the truthiness test on
`summaries.length`. -/
def buildVariantAnalysisGistDescription (variantAnalysis : VariantAnalysis)
    (summaries : List RepositorySummary) : String :=
  let resultCount := summaries.foldl (fun acc summary => acc + summary.resultCount.getD 0) 0
  let resultLabel := pluralize resultCount "result" "results"
  let repositoryLabel :=
    if summaries.length ≠ 0 then
      "(" ++ pluralize summaries.length "repository" "repositories" ++ ")"
    else ""
  variantAnalysis.query.name ++ " (" ++ variantAnalysis.query.language ++ ") "
    ++ resultLabel ++ " " ++ repositoryLabel

/-- Description format exactly as the claim words it: query name,
parenthesized language, pluralized result count, and — only when there
is at least one repository — a parenthesized pluralized repository
count, with single spaces between the parts and nothing after the
result phrase in the zero-repository case. -/
def claimedGistDescription (variantAnalysis : VariantAnalysis)
    (summaries : List RepositorySummary) : String :=
  let n := summaries.foldl (fun acc summary => acc + summary.resultCount.getD 0) 0
  let m := summaries.length
  variantAnalysis.query.name ++ " (" ++ variantAnalysis.query.language ++ ") "
    ++ toString n ++ " " ++ (if n = 1 then "result" else "results")
    ++ (if m = 0 then ""
        else " (" ++ toString m ++ " " ++ (if m = 1 then "repository" else "repositories") ++ ")")

/-- Removal of every '-' and ':' character (the global regex replace on
the ISO timestamp). -/
def removeDashColon (s : String) : String :=
  String.mk (s.data.filter (fun c => !(c == '-' || c == ':')))

/-- Replacement of a trailing ".<digits>Z" by "Z" (the anchored regex
replace removing fractional seconds). -/
def stripFractionalZ (s : String) : String :=
  match s.data.reverse with
  | 'Z' :: rest =>
    match rest.dropWhile Char.isDigit with
    | '.' :: tail =>
      if (rest.takeWhile Char.isDigit).isEmpty then s
      else String.mk (tail.reverse ++ ['Z'])
    | _ => s
  | _ => s

/-- The compact timestamp computed by the export entry point from the
current UTC instant's ISO rendering. -/
def formattedDate (isoNow : String) : String :=
  stripFractionalZ (removeDashColon isoNow)

/-- Path join (the `join` of the `path` module, modelled as separator
concatenation). -/
def joinPath (a b : String) : String := a ++ "/" ++ b

/-- Destination directory of a local export:
`<storage>/exported-results/results_<formattedDate>`. -/
def exportedResultsDirectory (exportDirectory isoNow : String) : String :=
  joinPath (joinPath exportDirectory "exported-results") ("results_" ++ formattedDate isoNow)

/-- Export destination formats offered to the user. -/
inductive ExportFormat where
  | gist
  | localMarkdown
deriving DecidableEq, Repr

/-- Observable effects of the export pipeline, in program order:
log lines, progress reports, the renderer invocation, recursive
directory creation, file writes (with encoding) and Gist creation. -/
inductive ExpEffect where
  | logText (msg : String)
  | progressReport (step : Nat) (message : String)
  | generateMarkdown
  | ensureDir (path : String)
  | writeFile (path : String) (content : String) (encoding : String)
  | createGist (description : String) (files : List (String × String))
deriving DecidableEq, Repr

/-- Errors crossing the command boundary: the distinguished user
cancellation (with its silent flag) or any other error (with an
optional stack). -/
inductive CmdError where
  | userCancellation (message : String) (silent : Bool)
  | otherError (message : String) (stack : Option String)
deriving DecidableEq, Repr

/-- Message carried by an error. -/
def CmdError.message : CmdError → String
  | .userCancellation m _ => m
  | .otherError m _ => m

/-- Local export (`exportToLocalMarkdown`): after the cancellation check
and the step-2 progress report, the destination directory is created
recursively and one `<fileName>.md` file is written per rendered file,
UTF-8 encoded, joining content lines with newlines. -/
def exportToLocalMarkdown (exportedResultsPath : String)
    (markdownFiles : List MarkdownFile) (cancelled : Bool) :
    Except CmdError (List ExpEffect) :=
  if cancelled then Except.error (CmdError.userCancellation "Cancelled" false)
  else Except.ok
    (ExpEffect.progressReport 2 "Creating local Markdown files"
      :: ExpEffect.ensureDir exportedResultsPath
      :: markdownFiles.map (fun f =>
          ExpEffect.writeFile (joinPath exportedResultsPath (f.fileName ++ ".md"))
            (String.intercalate "\n" f.content) "utf8"))

/-- The gist upload payload: one entry per rendered file, keyed by
`<fileName>.md`, with newline-joined content (the `reduce` building the
gist files object). -/
def gistFilesOf (markdownFiles : List MarkdownFile) : List (String × String) :=
  markdownFiles.map (fun f => (f.fileName ++ ".md", String.intercalate "\n" f.content))

/-- Gist export (`exportToGist`): one remote paste holding every file,
with the description.  The source emits the step-2 progress report just
before its cancellation check; with cancellation modelled as a
run-constant flag the two orders are indistinguishable. -/
def exportToGist (description : String) (markdownFiles : List MarkdownFile)
    (cancelled : Bool) : Except CmdError (List ExpEffect) :=
  if cancelled then Except.error (CmdError.userCancellation "Cancelled" false)
  else Except.ok
    [ExpEffect.progressReport 2 "Creating Gist",
     ExpEffect.createGist description (gistFilesOf markdownFiles)]

/-- Format dispatch (`exportResults`). -/
def exportResultsModel (exportedResultsPath description : String)
    (markdownFiles : List MarkdownFile) (exportFormat : ExportFormat)
    (cancelled : Bool) : Except CmdError (List ExpEffect) :=
  if cancelled then Except.error (CmdError.userCancellation "Cancelled" false)
  else
    match exportFormat with
    | ExportFormat.gist => exportToGist description markdownFiles cancelled
    | ExportFormat.localMarkdown =>
      exportToLocalMarkdown exportedResultsPath markdownFiles cancelled

/-- Render-and-write stage (`exportVariantAnalysisAnalysisResults`):
cancellation check, step-1 progress report, renderer invocation (whose
output `markdownFiles`/`summaries` is supplied as an input, the
renderer itself being the out-of-scope markdown generator), description
build, then the format dispatch. -/
def exportVariantAnalysisAnalysisResultsModel (exportedResultsPath : String)
    (variantAnalysis : VariantAnalysis) (markdownFiles : List MarkdownFile)
    (summaries : List RepositorySummary) (exportFormat : ExportFormat)
    (cancelled : Bool) : Except CmdError (List ExpEffect) :=
  if cancelled then Except.error (CmdError.userCancellation "Cancelled" false)
  else
    let description := buildVariantAnalysisGistDescription variantAnalysis summaries
    match exportResultsModel exportedResultsPath description markdownFiles exportFormat cancelled with
    | Except.error e => Except.error e
    | Except.ok effs =>
      Except.ok (ExpEffect.progressReport 1 "Generating Markdown files"
        :: ExpEffect.generateMarkdown :: effs)

/-- Label of the gist option in the export-format picker. -/
def gistOptionLabel : String := "$(ports-open-browser-icon) Create Gist (GitHub)"

/-- Label of the local-markdown option in the export-format picker. -/
def localMarkdownOptionLabel : String := "$(markdown) Save as markdown"

/-- Outcome of the quick pick: one of the two offered items, or (to
cover the source's defensive fall-through) some other item. -/
inductive PickResult where
  | gistItem
  | localMarkdownItem
  | otherItem (itemLabel : String)
deriving DecidableEq, Repr

/-- Label of a picked item. -/
def PickResult.label : PickResult → String
  | .gistItem => gistOptionLabel
  | .localMarkdownItem => localMarkdownOptionLabel
  | .otherItem l => l

/-- Format resolution (`determineExportFormat`): a dismissed picker (no
item, or an item with an empty label) raises a silent user
cancellation; the two offered items map to their formats; any other
item falls through to no format. -/
def determineExportFormat (pick : Option PickResult) :
    Except CmdError (Option ExportFormat) :=
  match pick with
  | none => Except.error (CmdError.userCancellation "No export format selected" true)
  | some p =>
    if p.label = "" then
      Except.error (CmdError.userCancellation "No export format selected" true)
    else
      match p with
      | PickResult.gistItem => Except.ok (some ExportFormat.gist)
      | PickResult.localMarkdownItem => Except.ok (some ExportFormat.localMarkdown)
      | PickResult.otherItem _ => Except.ok none

/-- Sort keys offered by the repositories sort dropdown (Name, Results,
Stars, Last updated). -/
inductive SortKey where
  | name
  | resultsCount
  | stars
  | lastUpdated
deriving DecidableEq, Repr

/-- Modelled from the spec: the filter/sort criteria object of
`pure/variant-analysis-filter-sort.ts` (not in scope) — an explicit
configuration enumerating the sort key and the filter text. -/
structure RepositoriesFilterSortState where
  searchValue : String
  sortKey : SortKey
deriving DecidableEq, Repr

/-- Substring test on character lists (the filter-text match). -/
def containsSub (hay need : List Char) : Bool :=
  (List.range (hay.length + 1)).any (fun i => need.isPrefixOf (hay.drop i))

/-- Whether a repository's full name matches the filter text of the
criteria (no criteria means no filtering). -/
def matchesSearch (filterSortState : Option RepositoriesFilterSortState)
    (repo : ScannedRepository) : Bool :=
  containsSub repo.repository.fullName.data
    ((filterSortState.map (fun fs => fs.searchValue)).getD "").data

/-- Insertion of an element into a list sorted by a boolean
comparator. -/
def insertSorted {α : Type} (le : α → α → Bool) (x : α) : List α → List α
  | [] => [x]
  | y :: ys => if le x y then x :: y :: ys else y :: insertSorted le x ys

/-- Insertion sort by a boolean comparator. -/
def sortWith {α : Type} (le : α → α → Bool) (l : List α) : List α :=
  l.foldr (insertSorted le) []

/-- Modelled from the spec: the comparator for each sort key — name
ascending, result count / star count / last-updated descending. -/
def repoLe (key : SortKey) (x y : ScannedRepository) : Bool :=
  match key with
  | SortKey.name => (compare x.repository.fullName y.repository.fullName).isLE
  | SortKey.resultsCount => decide (y.resultCount.getD 0 ≤ x.resultCount.getD 0)
  | SortKey.stars =>
    decide (y.repository.stargazersCount.getD 0 ≤ x.repository.stargazersCount.getD 0)
  | SortKey.lastUpdated =>
    (compare (y.repository.updatedAt.getD "") (x.repository.updatedAt.getD "")).isLE

/-- Modelled from the spec: `filterAndSortRepositoriesWithResults` of
`pure/variant-analysis-filter-sort.ts` (not in scope) applies the filter
text and then orders by the sort key (name by default); an absent
repository collection stays absent. -/
def filterAndSortRepositoriesWithResults
    (repositories : Option (List ScannedRepository))
    (filterSortState : Option RepositoriesFilterSortState) :
    Option (List ScannedRepository) :=
  repositories.map (fun repos =>
    sortWith (repoLe ((filterSortState.map (fun fs => fs.sortKey)).getD SortKey.name))
      (repos.filter (matchesSearch filterSortState)))

/-- Modelled from the spec: per-repository download state
(`RepoDownloadState`, independent lifecycle from the analysis
status). -/
inductive DownloadStatus where
  | pending
  | inProgress
  | succeeded
  | failed
deriving DecidableEq, Repr

/-- One repository's download-state record, keyed by repository id. -/
structure RepoState where
  repositoryId : Nat
  downloadStatus : DownloadStatus
deriving DecidableEq, Repr

/-- JavaScript truthiness of an optional numeric result count: absent
and zero are falsy. -/
def truthyResultCount : Option Nat → Bool
  | none => false
  | some n => n != 0

/-- The repositories the export selects (the filter chain of
`exportVariantAnalysisResults`): the filtered-and-sorted collection
restricted to repositories with a truthy result count whose download
state record reports a succeeded download. -/
def selectedRepositories (scannedRepos : Option (List ScannedRepository))
    (repoStates : List RepoState)
    (filterSort : Option RepositoriesFilterSortState) :
    Option (List ScannedRepository) :=
  (filterAndSortRepositoriesWithResults scannedRepos filterSort).map (fun repos =>
    repos.filter (fun repo =>
      truthyResultCount repo.resultCount &&
        ((repoStates.find? (fun r => r.repositoryId == repo.repository.id)).map
            (fun r => r.downloadStatus) == some DownloadStatus.succeeded)))

/-- Trace events of the result-loading generator: calls to the
collaborator `loadResults(vaId, repoFullName, {skipCacheStore})` and the
pairs it yields. -/
inductive LoadTraceEvent (α : Type) where
  | loadCall (vaId : Nat) (repoFullName : String) (skipCacheStore : Bool)
  | yielded (repo : ScannedRepository) (result : α)
deriving DecidableEq, Repr

/-- The generator `getAnalysesResults` as its event trace: nothing when
the job or the selection is absent; otherwise, for each selected
repository in order, one load call (with the job id, the repository's
full name and `skipCacheStore` set) immediately followed by the yielded
pair.  `load` stands for the collaborator's response. -/
def getAnalysesResults {α : Type} (variantAnalysis : Option VariantAnalysis)
    (repositories : Option (List ScannedRepository))
    (load : Nat → String → α) : List (LoadTraceEvent α) :=
  match variantAnalysis with
  | none => []
  | some va =>
    match repositories with
    | none => []
    | some repos =>
      repos.flatMap (fun repo =>
        [LoadTraceEvent.loadCall va.id repo.repository.fullName true,
         LoadTraceEvent.yielded repo (load va.id repo.repository.fullName)])

/-- The export entry point (`exportVariantAnalysisResults`) as its
effect trace: missing job is an error; then cancellation check, the
export log line, the step-0 progress report, format resolution (an
error there propagates; no format returns with nothing rendered or
written), a second cancellation check, and the render-and-write
stage under the timestamped destination directory. -/
def exportVariantAnalysisResultsModel (variantAnalysis : Option VariantAnalysis)
    (cancelledAtStart cancelledAfterFormat : Bool) (pick : Option PickResult)
    (exportDirectory isoNow : String) (markdownFiles : List MarkdownFile)
    (summaries : List RepositorySummary) : Except CmdError (List ExpEffect) :=
  match variantAnalysis with
  | none =>
    Except.error (CmdError.otherError
      "There was an error when trying to retrieve variant analysis information" none)
  | some va =>
    if cancelledAtStart then Except.error (CmdError.userCancellation "Cancelled" false)
    else
      let pre := [ExpEffect.logText
          ("Exporting variant analysis results for variant analysis with id "
            ++ toString va.id),
        ExpEffect.progressReport 0 "Determining export format"]
      match determineExportFormat pick with
      | Except.error e => Except.error e
      | Except.ok none => Except.ok pre
      | Except.ok (some fmt) =>
        if cancelledAfterFormat then
          Except.error (CmdError.userCancellation "Cancelled" false)
        else
          match exportVariantAnalysisAnalysisResultsModel
              (exportedResultsDirectory exportDirectory isoNow) va markdownFiles
              summaries fmt cancelledAfterFormat with
          | Except.error e => Except.error e
          | Except.ok effs => Except.ok (pre ++ effs)

/-- Observable effects of the command-boundary wrapper: output-log
lines, user-facing warnings, the show-and-log-exception-with-telemetry
path, and the command-usage telemetry sent in the `finally` block. -/
inductive CmdEffect where
  | logOutput (msg : String)
  | showWarning (msg : String)
  | showAndLogException (redactedMessage fullMessage command : String)
  | sendCommandUsage (command : String) (hadError : Bool)
deriving DecidableEq, Repr

/-- The command wrapper of `registerCommandWithErrorHandling`, applied
to one invocation whose handler outcome is `taskResult`: a successful
task's value is returned; an error is classified — silent cancellation
only logged, interactive cancellation shown as a warning, anything else
routed through show-and-log-exception-with-telemetry — and the command
returns no value.  Usage telemetry is sent in both cases. -/
def runRegisteredCommand {α : Type} (commandId : String)
    (taskResult : Except CmdError α) : Option α × List CmdEffect :=
  match taskResult with
  | Except.ok v => (some v, [CmdEffect.sendCommandUsage commandId false])
  | Except.error e =>
    let errorMessage := e.message ++ " (" ++ commandId ++ ")"
    let handling :=
      match e with
      | CmdError.userCancellation _ silent =>
        if silent then [CmdEffect.logOutput errorMessage]
        else [CmdEffect.showWarning errorMessage]
      | CmdError.otherError _ stack =>
        let fullMessage :=
          match stack with
          | some st => errorMessage ++ "\n" ++ st
          | none => errorMessage
        [CmdEffect.showAndLogException errorMessage fullMessage commandId]
    (none, handling ++ [CmdEffect.sendCommandUsage commandId true])

/-- Fixture factory mirroring the test's `createMockScannedRepos`: a
scanned repository with the given id and analysis status. -/
def mkApiRepo (n : Nat) (st : ApiRepoStatus) : ApiScannedRepository :=
  { repository :=
      { id := n
        fullName := "github/mock-repo-" ++ toString n
        stargazersCount := some n
        updatedAt := none }
    analysisStatus := st
    resultCount := some 10
    artifactSizeInBytes := some 100 }

/-- Fixture: repositories with ids 0, 1, … carrying the given analysis
statuses. -/
def reposWithStatuses (sts : List ApiRepoStatus) : List ApiScannedRepository :=
  sts.enum.map (fun p => mkApiRepo p.fst p.snd)

/-- Fixture job mirroring the test's `createMockVariantAnalysis`. -/
def fixtureJob : VariantAnalysis :=
  { id := 42
    query := { name := "a-query-name", language := "javascript", queryId := "a-query-id" }
    status := JobStatus.inProgress
    failureReason := none
    scannedRepos := none }

/-- Fixture: the seven-repository snapshot of the "already succeeded
repos" test — statuses [pending, pending, in_progress, in_progress,
succeeded, succeeded, succeeded], top-level status succeeded. -/
def snapshotSeven : ApiSnapshot :=
  { status := ApiStatus.succeeded
    failureReason := none
    scannedRepositories := reposWithStatuses
      [ApiRepoStatus.pending, ApiRepoStatus.pending, ApiRepoStatus.inProgress,
       ApiRepoStatus.inProgress, ApiRepoStatus.succeeded, ApiRepoStatus.succeeded,
       ApiRepoStatus.succeeded] }

/-- Fixture: a failed snapshot (the `createFailedMockApiResponse`
analogue). -/
def failedSnapshot : ApiSnapshot :=
  { status := ApiStatus.failed
    failureReason := some WireFailureReason.internalError
    scannedRepositories := [] }

/-- Fixture: first snapshot of the incremental four-poll scenario. -/
def pollOne : ApiSnapshot :=
  { status := ApiStatus.inProgress
    failureReason := none
    scannedRepositories := reposWithStatuses
      [ApiRepoStatus.pending, ApiRepoStatus.inProgress, ApiRepoStatus.inProgress,
       ApiRepoStatus.inProgress, ApiRepoStatus.pending, ApiRepoStatus.pending] }

/-- Fixture: second snapshot — repositories 0 and 1 now succeeded. -/
def pollTwo : ApiSnapshot :=
  { pollOne with
      scannedRepositories := reposWithStatuses
        [ApiRepoStatus.succeeded, ApiRepoStatus.succeeded, ApiRepoStatus.inProgress,
         ApiRepoStatus.inProgress, ApiRepoStatus.pending, ApiRepoStatus.pending] }

/-- Fixture: third snapshot — repositories 2 and 5 now succeeded. -/
def pollThree : ApiSnapshot :=
  { pollOne with
      scannedRepositories := reposWithStatuses
        [ApiRepoStatus.succeeded, ApiRepoStatus.succeeded, ApiRepoStatus.succeeded,
         ApiRepoStatus.inProgress, ApiRepoStatus.pending, ApiRepoStatus.succeeded] }

/-- Fixture: fourth snapshot — repository 3 succeeded, repository 4
failed. -/
def pollFour : ApiSnapshot :=
  { pollOne with
      scannedRepositories := reposWithStatuses
        [ApiRepoStatus.succeeded, ApiRepoStatus.succeeded, ApiRepoStatus.succeeded,
         ApiRepoStatus.succeeded, ApiRepoStatus.failed, ApiRepoStatus.succeeded] }

/-- Fixture: the four-poll sequence of the "responses change" test. -/
def fourPolls : List ApiSnapshot := [pollOne, pollTwo, pollThree, pollFour]

/-- Fixture query holder for the description builder. -/
def fixtureExportJob : VariantAnalysis :=
  { id := 7
    query := { name := "Empty Block", language := "go", queryId := "go/empty-block" }
    status := JobStatus.succeeded
    failureReason := none
    scannedRepos := none }

/-- Fixture rendered files: the per-repository file and the aggregated
summary file. -/
def fixtureMarkdownFiles : List MarkdownFile :=
  [{ fileName := "_summary", content := ["# Summary", "| repo | results |"] },
   { fileName := "github-mock-repo-1", content := ["# github/mock-repo-1"] }]

/-- No repository reported failed in the earlier snapshot is reported
succeeded in the later one (per-repository monotonicity across a pair
of snapshots). -/
def noFailThenSucceed (s t : ApiSnapshot) : Prop :=
  ∀ r ∈ s.scannedRepositories, r.analysisStatus = ApiRepoStatus.failed →
    ¬ succeededIn t r.repository.id

instance (s t : ApiSnapshot) : Decidable (noFailThenSucceed s t) := by
  unfold noFailThenSucceed; infer_instance

-- ===== helper lemmas =====

theorem headD_false_of_all_false {cancels : List Bool}
    (h : ∀ b ∈ cancels, b = false) : cancels.headD false = false := by
  cases cancels with
  | nil => rfl
  | cons b bs => exact h b (List.mem_cons_self b bs)

-- ===== C3 =====

/-- C3: if the cancellation predicate answers true before the first
poll, the run emits no events and performs no fetch. -/
theorem monitor_cancelled_before_first_poll (job : VariantAnalysis)
    (cancels : List Bool) (polls : List ApiSnapshot) (fuel : Nat)
    (hcancel : cancels.headD false = true) :
    monitorVariantAnalysis job cancels polls fuel = ⟨[], 0⟩ := by
  cases fuel with
  | zero => rfl
  | succ n =>
    cases cancels with
    | nil => simp at hcancel
    | cons b bs =>
      simp only [List.headD_cons] at hcancel
      simp [monitorVariantAnalysis, monitorLoop, hcancel]

theorem monitor_cancelled_before_first_poll_witness :
    monitorVariantAnalysis fixtureJob [true] [snapshotSeven] 3 = ⟨[], 0⟩ :=
  monitor_cancelled_before_first_poll fixtureJob [true] [snapshotSeven] 3 (by decide)

-- ===== C2 =====

/-- C2: a failed first fetch yields exactly one change event carrying
status Failed and the mapped failure classification, no download
triggers, and exactly one poll. -/
theorem monitor_failed_first_fetch (job : VariantAnalysis) (cancels : List Bool)
    (snap : ApiSnapshot) (rest : List ApiSnapshot) (fuel : Nat)
    (raw : WireFailureReason)
    (hfuel : 0 < fuel)
    (hcancel : cancels.headD false = false)
    (hstatus : snap.status = ApiStatus.failed)
    (hreason : snap.failureReason = some raw) :
    ∃ j : VariantAnalysis,
      (monitorVariantAnalysis job cancels (snap :: rest) fuel).events
          = [MonitorEvent.change j]
        ∧ j.status = JobStatus.failed
        ∧ j.failureReason = some (processFailureReason raw)
        ∧ downloadIds (monitorVariantAnalysis job cancels (snap :: rest) fuel).events = []
        ∧ (monitorVariantAnalysis job cancels (snap :: rest) fuel).fetches = 1 := by
  obtain ⟨n, rfl⟩ : ∃ n, fuel = n + 1 := ⟨fuel - 1, by omega⟩
  cases cancels with
  | nil =>
    refine ⟨failedJobOf job snap, ?_, ?_, ?_, ?_, ?_⟩ <;>
      simp [monitorVariantAnalysis, monitorLoop, hstatus, hreason,
        failedJobOf, downloadIds]
  | cons b bs =>
    simp only [List.headD_cons] at hcancel
    refine ⟨failedJobOf job snap, ?_, ?_, ?_, ?_, ?_⟩ <;>
      simp [monitorVariantAnalysis, monitorLoop, hcancel, hstatus, hreason,
        failedJobOf, downloadIds]

theorem monitor_failed_first_fetch_witness :
    ∃ j : VariantAnalysis,
      (monitorVariantAnalysis fixtureJob [] [failedSnapshot] 3).events
          = [MonitorEvent.change j]
        ∧ j.status = JobStatus.failed
        ∧ j.failureReason = some (processFailureReason WireFailureReason.internalError)
        ∧ downloadIds (monitorVariantAnalysis fixtureJob [] [failedSnapshot] 3).events = []
        ∧ (monitorVariantAnalysis fixtureJob [] [failedSnapshot] 3).fetches = 1 :=
  monitor_failed_first_fetch fixtureJob [] failedSnapshot [] 3
    WireFailureReason.internalError (by decide) (by decide) (by decide) (by decide)

-- ===== C4 =====

/-- C4: on the seven-repository snapshot with top-level status
succeeded, the run fires exactly three download triggers — one per
already-succeeded repository, in snapshot order, each carrying the
processed repository and the processed job — before the single change
event. -/
theorem monitor_seven_repos_three_downloads :
    (monitorVariantAnalysis fixtureJob [] [snapshotSeven] 3).events
      = [MonitorEvent.download (processScannedRepository (mkApiRepo 4 ApiRepoStatus.succeeded))
           (processUpdatedVariantAnalysis fixtureJob snapshotSeven),
         MonitorEvent.download (processScannedRepository (mkApiRepo 5 ApiRepoStatus.succeeded))
           (processUpdatedVariantAnalysis fixtureJob snapshotSeven),
         MonitorEvent.download (processScannedRepository (mkApiRepo 6 ApiRepoStatus.succeeded))
           (processUpdatedVariantAnalysis fixtureJob snapshotSeven),
         MonitorEvent.change (processUpdatedVariantAnalysis fixtureJob snapshotSeven)] := by
  decide

-- ===== C5 =====

/-- C5 counterexample: with zero repositories the built description is
not the claimed format — the separator space before the omitted
parenthetical survives, leaving a trailing space. -/
theorem gist_description_zero_repos_ne_claimed :
    buildVariantAnalysisGistDescription fixtureExportJob []
      ≠ claimedGistDescription fixtureExportJob [] := by
  decide

/-- C5 amended: the built description equals the claimed format — query
name, parenthesized language, pluralized result count, and a
parenthesized pluralized repository count omitted when empty — except
that the zero-repository case keeps a trailing space. -/
theorem gist_description_matches_claimed_format (variantAnalysis : VariantAnalysis)
    (summaries : List RepositorySummary) :
    buildVariantAnalysisGistDescription variantAnalysis summaries
      = claimedGistDescription variantAnalysis summaries
        ++ (if summaries.length = 0 then " " else "") := by
  cases summaries with
  | nil =>
    apply String.ext
    simp [buildVariantAnalysisGistDescription, claimedGistDescription, pluralize,
      String.data_append]
  | cons s ss =>
    apply String.ext
    simp [buildVariantAnalysisGistDescription, claimedGistDescription, pluralize,
      String.data_append]

-- ===== C9 =====

/-- C9: every handler error yields no return value; a cancellation never
reaches the show-and-log-exception path (silent ones are only logged,
interactive ones shown as warnings), while every other error goes
through show-and-log-exception-with-telemetry. -/
theorem command_boundary_error_handling (commandId : String) (e : CmdError) :
    (runRegisteredCommand (α := Unit) commandId (Except.error e)).1 = none
    ∧ (∀ m s, e = CmdError.userCancellation m s →
        (∀ x f c, CmdEffect.showAndLogException x f c
            ∉ (runRegisteredCommand (α := Unit) commandId (Except.error e)).2)
        ∧ (s = true →
            CmdEffect.logOutput (m ++ " (" ++ commandId ++ ")")
                ∈ (runRegisteredCommand (α := Unit) commandId (Except.error e)).2
              ∧ ∀ x, CmdEffect.showWarning x
                  ∉ (runRegisteredCommand (α := Unit) commandId (Except.error e)).2)
        ∧ (s = false →
            CmdEffect.showWarning (m ++ " (" ++ commandId ++ ")")
                ∈ (runRegisteredCommand (α := Unit) commandId (Except.error e)).2
              ∧ ∀ x, CmdEffect.logOutput x
                  ∉ (runRegisteredCommand (α := Unit) commandId (Except.error e)).2))
    ∧ (∀ m st, e = CmdError.otherError m st →
        ∃ f, CmdEffect.showAndLogException (m ++ " (" ++ commandId ++ ")") f commandId
          ∈ (runRegisteredCommand (α := Unit) commandId (Except.error e)).2) := by
  refine ⟨?_, ?_, ?_⟩
  · cases e <;> simp [runRegisteredCommand]
  · rintro m s rfl
    refine ⟨?_, ?_, ?_⟩
    · cases s <;> simp [runRegisteredCommand, CmdError.message]
    · rintro rfl
      simp [runRegisteredCommand, CmdError.message]
    · rintro rfl
      simp [runRegisteredCommand, CmdError.message]
  · rintro m st rfl
    cases st with
    | none => exact ⟨m ++ " (" ++ commandId ++ ")", by
        simp [runRegisteredCommand, CmdError.message]⟩
    | some stack => exact ⟨m ++ " (" ++ commandId ++ ")" ++ "\n" ++ stack, by
        simp [runRegisteredCommand, CmdError.message]⟩

theorem command_boundary_error_handling_witness :
    CmdEffect.logOutput "stopped (codeQL.exportVariantAnalysisResults)"
        ∈ (runRegisteredCommand (α := Unit) "codeQL.exportVariantAnalysisResults"
            (Except.error (CmdError.userCancellation "stopped" true))).2
      ∧ ∀ x, CmdEffect.showWarning x
          ∉ (runRegisteredCommand (α := Unit) "codeQL.exportVariantAnalysisResults"
              (Except.error (CmdError.userCancellation "stopped" true))).2 :=
  (((command_boundary_error_handling "codeQL.exportVariantAnalysisResults"
      (CmdError.userCancellation "stopped" true)).2.1 "stopped" true rfl).2.1 rfl)

-- ===== C10 =====

/-- C10: a dismissed export-format picker raises a silent user
cancellation (so the command boundary shows no warning), and when format
resolution yields no format the export returns having rendered and
written nothing. -/
theorem export_format_cancellation_and_no_format (variantAnalysis : VariantAnalysis)
    (cancelledAfterFormat : Bool) (pick : Option PickResult)
    (exportDirectory isoNow : String) (markdownFiles : List MarkdownFile)
    (summaries : List RepositorySummary) :
    (pick = none →
      exportVariantAnalysisResultsModel (some variantAnalysis) false
          cancelledAfterFormat pick exportDirectory isoNow markdownFiles summaries
        = Except.error (CmdError.userCancellation "No export format selected" true)
      ∧ ∀ x, CmdEffect.showWarning x
          ∉ (runRegisteredCommand (α := Unit) "codeQL.exportVariantAnalysisResults"
              (Except.error (CmdError.userCancellation "No export format selected" true))).2)
    ∧ (determineExportFormat pick = Except.ok none →
      ∃ effs, exportVariantAnalysisResultsModel (some variantAnalysis) false
            cancelledAfterFormat pick exportDirectory isoNow markdownFiles summaries
          = Except.ok effs
        ∧ ∀ e ∈ effs,
            (match e with
             | ExpEffect.generateMarkdown => False
             | ExpEffect.ensureDir _ => False
             | ExpEffect.writeFile _ _ _ => False
             | ExpEffect.createGist _ _ => False
             | _ => True)) := by
  constructor
  · rintro rfl
    constructor
    · simp [exportVariantAnalysisResultsModel, determineExportFormat]
    · simp [runRegisteredCommand, CmdError.message]
  · intro hfmt
    refine ⟨[ExpEffect.logText
        ("Exporting variant analysis results for variant analysis with id "
          ++ toString variantAnalysis.id),
      ExpEffect.progressReport 0 "Determining export format"], ?_, ?_⟩
    · simp [exportVariantAnalysisResultsModel, hfmt]
    · intro e he
      simp at he
      rcases he with rfl | rfl <;> simp

theorem export_format_cancellation_witness :
    exportVariantAnalysisResultsModel (some fixtureExportJob) false false none
        "/store/va7" "2022-11-15T12:34:56.789Z" fixtureMarkdownFiles []
      = Except.error (CmdError.userCancellation "No export format selected" true) :=
  ((export_format_cancellation_and_no_format fixtureExportJob false none
      "/store/va7" "2022-11-15T12:34:56.789Z" fixtureMarkdownFiles []).1 rfl).1

-- ===== C7 =====

theorem truthyResultCount_iff (x : Option Nat) :
    truthyResultCount x = true ↔ ∃ n, x = some n ∧ n ≠ 0 := by
  cases x with
  | none => simp [truthyResultCount]
  | some n => simp [truthyResultCount]

/-- C7: a repository is selected for export exactly when it survives the
filter/sort criteria and has a non-zero result count and a download
state record reporting a succeeded download. -/
theorem export_selection_characterization
    (scannedRepos : Option (List ScannedRepository)) (repoStates : List RepoState)
    (filterSort : Option RepositoriesFilterSortState) (repo : ScannedRepository) :
    repo ∈ (selectedRepositories scannedRepos repoStates filterSort).getD []
      ↔ repo ∈ (filterAndSortRepositoriesWithResults scannedRepos filterSort).getD []
        ∧ (∃ n, repo.resultCount = some n ∧ n ≠ 0)
        ∧ (repoStates.find? (fun r => r.repositoryId == repo.repository.id)).map
            (fun r => r.downloadStatus) = some DownloadStatus.succeeded := by
  cases scannedRepos with
  | none => simp [selectedRepositories, filterAndSortRepositoriesWithResults]
  | some repos =>
    simp [selectedRepositories, filterAndSortRepositoriesWithResults,
      List.mem_filter, truthyResultCount_iff]

-- ===== C8 =====

theorem getAnalysesResults_length {α : Type} (va : VariantAnalysis)
    (repos : List ScannedRepository) (load : Nat → String → α) :
    (getAnalysesResults (some va) (some repos) load).length = 2 * repos.length := by
  induction repos with
  | nil => rfl
  | cons r rs ih =>
    simp [getAnalysesResults] at ih ⊢
    omega

theorem getAnalysesResults_get {α : Type} (va : VariantAnalysis)
    (repos : List ScannedRepository) (load : Nat → String → α) :
    ∀ i, ∀ h : i < repos.length,
      (getAnalysesResults (some va) (some repos) load).get? (2 * i)
          = some (LoadTraceEvent.loadCall va.id
              (repos.get ⟨i, h⟩).repository.fullName true)
        ∧ (getAnalysesResults (some va) (some repos) load).get? (2 * i + 1)
            = some (LoadTraceEvent.yielded (repos.get ⟨i, h⟩)
                (load va.id (repos.get ⟨i, h⟩).repository.fullName)) := by
  induction repos with
  | nil => intro i h; simp at h
  | cons r rs ih =>
    intro i h
    cases i with
    | zero => simp [getAnalysesResults]
    | succ j =>
      have hj : j < rs.length := by simpa using Nat.lt_of_succ_lt_succ h
      have := ih j hj
      simp only [getAnalysesResults] at this ⊢
      have h2 : 2 * (j + 1) = (2 * j) + 2 := by omega
      have h3 : 2 * (j + 1) + 1 = (2 * j + 1) + 2 := by omega
      simp [h2, h3, List.flatMap_cons]
      simpa using this

/-- C8: the result-loading trace is the per-repository interleaving, in
list order, of one load call — with the job id, the repository's full
name and `skipCacheStore` set — immediately followed by the yielded
pair, with nothing else: position 2i is repository i's load call and
position 2i+1 its yielded pair, and the trace has exactly two entries
per repository. -/
theorem analyses_results_lazy_interleaving {α : Type} (va : VariantAnalysis)
    (repos : List ScannedRepository) (load : Nat → String → α)
    (i : Nat) (h : i < repos.length) :
    (getAnalysesResults (some va) (some repos) load).length = 2 * repos.length
    ∧ (getAnalysesResults (some va) (some repos) load).get? (2 * i)
        = some (LoadTraceEvent.loadCall va.id
            (repos.get ⟨i, h⟩).repository.fullName true)
    ∧ (getAnalysesResults (some va) (some repos) load).get? (2 * i + 1)
        = some (LoadTraceEvent.yielded (repos.get ⟨i, h⟩)
            (load va.id (repos.get ⟨i, h⟩).repository.fullName)) :=
  ⟨getAnalysesResults_length va repos load,
   (getAnalysesResults_get va repos load i h).1,
   (getAnalysesResults_get va repos load i h).2⟩

theorem analyses_results_lazy_interleaving_witness :
    (getAnalysesResults (some fixtureExportJob)
        (some [processScannedRepository (mkApiRepo 1 ApiRepoStatus.succeeded),
               processScannedRepository (mkApiRepo 2 ApiRepoStatus.succeeded)])
        (fun vaId fullName => (vaId, fullName))).get? 2
      = some (LoadTraceEvent.loadCall 7 "github/mock-repo-2" true) := by
  have := (analyses_results_lazy_interleaving fixtureExportJob
    [processScannedRepository (mkApiRepo 1 ApiRepoStatus.succeeded),
     processScannedRepository (mkApiRepo 2 ApiRepoStatus.succeeded)]
    (fun vaId fullName => (vaId, fullName)) 1 (by decide)).2.1
  simpa using this

-- ===== C6 helpers =====

theorem dropWhile_append_all {α : Type} (p : α → Bool) (l r : List α)
    (h : ∀ a ∈ l, p a = true) : (l ++ r).dropWhile p = r.dropWhile p := by
  induction l with
  | nil => rfl
  | cons a as ih =>
    simp only [List.cons_append, List.dropWhile_cons,
      h a (List.mem_cons_self a as), if_true]
    exact ih (fun b hb => h b (List.mem_cons_of_mem a hb))

theorem takeWhile_append_all {α : Type} (p : α → Bool) (l r : List α)
    (h : ∀ a ∈ l, p a = true) : (l ++ r).takeWhile p = l ++ r.takeWhile p := by
  induction l with
  | nil => rfl
  | cons a as ih =>
    simp only [List.cons_append, List.takeWhile_cons,
      h a (List.mem_cons_self a as), if_true]
    rw [ih (fun b hb => h b (List.mem_cons_of_mem a hb))]

theorem digit_not_dash_colon {c : Char} (h : c.isDigit = true) :
    (!(c == '-' || c == ':')) = true := by
  have hd : c ≠ '-' := by rintro rfl; exact absurd h (by decide)
  have hc : c ≠ ':' := by rintro rfl; exact absurd h (by decide)
  simp [hd, hc]

theorem formattedDate_of_iso (iso : String) (datePart timePart frac : List Char)
    (hdecomp : iso.data = datePart ++ 'T' :: (timePart ++ '.' :: (frac ++ ['Z'])))
    (hfracne : frac ≠ [])
    (hfrac : ∀ c ∈ frac, c.isDigit = true) :
    (formattedDate iso).data
      = datePart.filter (fun c => !(c == '-' || c == ':'))
          ++ 'T' :: (timePart.filter (fun c => !(c == '-' || c == ':')) ++ ['Z']) := by
  set p : Char → Bool := fun c => !(c == '-' || c == ':') with hp
  have pT : p 'T' = true := by rw [hp]; decide
  have pD : p '.' = true := by rw [hp]; decide
  have pZ : p 'Z' = true := by rw [hp]; decide
  have hfilterfrac : frac.filter p = frac := by
    rw [List.filter_eq_self]
    intro c hc
    exact digit_not_dash_colon (hfrac c hc)
  have hremoved : (removeDashColon iso).data
      = datePart.filter p ++ 'T' :: (timePart.filter p ++ '.' :: (frac ++ ['Z'])) := by
    show (iso.data.filter p) = _
    rw [hdecomp, List.filter_append, List.filter_cons_of_pos pT,
      List.filter_append, List.filter_cons_of_pos pD, List.filter_append,
      hfilterfrac, List.filter_cons_of_pos pZ, List.filter_nil]
  have hdigitdot : ('.' : Char).isDigit = false := by decide
  set d1 := datePart.filter p with hd1def
  set d2 := timePart.filter p with hd2def
  have hrev : (removeDashColon iso).data.reverse
      = 'Z' :: (frac.reverse ++ '.' :: (d2.reverse ++ 'T' :: d1.reverse)) := by
    rw [hremoved]
    simp
  have hdrop : (frac.reverse ++ '.' :: (d2.reverse ++ 'T' :: d1.reverse)).dropWhile
      Char.isDigit = '.' :: (d2.reverse ++ 'T' :: d1.reverse) := by
    rw [dropWhile_append_all Char.isDigit frac.reverse _
      (fun c hc => hfrac c (List.mem_reverse.mp hc))]
    rw [List.dropWhile_cons]
    simp [hdigitdot]
  have htake : (frac.reverse ++ '.' :: (d2.reverse ++ 'T' :: d1.reverse)).takeWhile
      Char.isDigit = frac.reverse := by
    rw [takeWhile_append_all Char.isDigit frac.reverse _
      (fun c hc => hfrac c (List.mem_reverse.mp hc))]
    rw [List.takeWhile_cons]
    simp [hdigitdot]
  have hne : frac.reverse.isEmpty = false := by
    cases hfr : frac.reverse with
    | nil => exact absurd (by simpa using hfr) hfracne
    | cons a as => rfl
  show (stripFractionalZ (removeDashColon iso)).data = _
  unfold stripFractionalZ
  rw [hrev]
  simp only [hdrop, htake, hne, Bool.false_eq_true, if_false]
  simp

-- ===== C6 =====

/-- C6: a local export writes under a destination directory ending in
`exported-results/results_<timestamp>` where the timestamp is the
compact rendering of the UTC instant (digits, one 'T', a trailing 'Z';
dashes, colons and fractional seconds removed), the directory is
created (recursively) first, and one UTF-8 `<fileName>.md` file is
written per rendered Markdown file. -/
theorem export_local_timestamped_directory (exportDir iso : String)
    (files : List MarkdownFile) (datePart timePart frac : List Char)
    (hdecomp : iso.data = datePart ++ 'T' :: (timePart ++ '.' :: (frac ++ ['Z'])))
    (hdate : ∀ c ∈ datePart, c.isDigit = true ∨ c = '-')
    (htime : ∀ c ∈ timePart, c.isDigit = true ∨ c = ':')
    (hfracne : frac ≠ [])
    (hfrac : ∀ c ∈ frac, c.isDigit = true) :
    ∃ ts : String, ∃ effs : List ExpEffect,
      formattedDate iso = ts
      ∧ (∃ d1 d2 : List Char,
          ts.data = d1 ++ 'T' :: (d2 ++ ['Z'])
          ∧ (∀ c ∈ d1, c.isDigit = true) ∧ (∀ c ∈ d2, c.isDigit = true))
      ∧ exportedResultsDirectory exportDir iso
          = exportDir ++ "/" ++ "exported-results" ++ "/" ++ ("results_" ++ ts)
      ∧ exportToLocalMarkdown (exportedResultsDirectory exportDir iso) files false
          = Except.ok effs
      ∧ effs.length = files.length + 2
      ∧ effs.get? 1 = some (ExpEffect.ensureDir (exportedResultsDirectory exportDir iso))
      ∧ ∀ f ∈ files,
          ExpEffect.writeFile
              (exportedResultsDirectory exportDir iso ++ "/" ++ (f.fileName ++ ".md"))
              (String.intercalate "\n" f.content) "utf8" ∈ effs := by
  refine ⟨formattedDate iso,
    ExpEffect.progressReport 2 "Creating local Markdown files"
      :: ExpEffect.ensureDir (exportedResultsDirectory exportDir iso)
      :: files.map (fun f : MarkdownFile =>
          ExpEffect.writeFile (joinPath (exportedResultsDirectory exportDir iso)
              (f.fileName ++ ".md"))
            (String.intercalate "\n" f.content) "utf8"),
    rfl, ?_, rfl, ?_, ?_, rfl, ?_⟩
  · refine ⟨datePart.filter (fun c => !(c == '-' || c == ':')),
      timePart.filter (fun c => !(c == '-' || c == ':')), ?_, ?_, ?_⟩
    · exact formattedDate_of_iso iso datePart timePart frac hdecomp hfracne hfrac
    · intro c hc
      rw [List.mem_filter] at hc
      rcases hdate c hc.1 with h | rfl
      · exact h
      · simp at hc
    · intro c hc
      rw [List.mem_filter] at hc
      rcases htime c hc.1 with h | rfl
      · exact h
      · simp at hc
  · rfl
  · simp
  · intro f hf
    simp only [List.mem_cons]
    right; right
    exact List.mem_map_of_mem _ hf

theorem export_local_timestamped_directory_witness :
    ∃ ts : String, ∃ effs : List ExpEffect,
      formattedDate "2022-11-15T12:34:56.789Z" = ts
      ∧ (∃ d1 d2 : List Char,
          ts.data = d1 ++ 'T' :: (d2 ++ ['Z'])
          ∧ (∀ c ∈ d1, c.isDigit = true) ∧ (∀ c ∈ d2, c.isDigit = true))
      ∧ exportedResultsDirectory "/store/va7" "2022-11-15T12:34:56.789Z"
          = "/store/va7" ++ "/" ++ "exported-results" ++ "/" ++ ("results_" ++ ts)
      ∧ exportToLocalMarkdown
            (exportedResultsDirectory "/store/va7" "2022-11-15T12:34:56.789Z")
            fixtureMarkdownFiles false
          = Except.ok effs
      ∧ effs.length = fixtureMarkdownFiles.length + 2
      ∧ effs.get? 1 = some (ExpEffect.ensureDir
          (exportedResultsDirectory "/store/va7" "2022-11-15T12:34:56.789Z"))
      ∧ ∀ f ∈ fixtureMarkdownFiles,
          ExpEffect.writeFile
              (exportedResultsDirectory "/store/va7" "2022-11-15T12:34:56.789Z"
                ++ "/" ++ (f.fileName ++ ".md"))
              (String.intercalate "\n" f.content) "utf8" ∈ effs :=
  export_local_timestamped_directory "/store/va7" "2022-11-15T12:34:56.789Z"
    fixtureMarkdownFiles "2022-11-15".data "12:34:56".data "789".data
    (by decide) (by decide) (by decide) (by decide) (by decide)

-- ===== C1 helpers =====

theorem downloadIds_append (a b : List MonitorEvent) :
    downloadIds (a ++ b) = downloadIds a ++ downloadIds b :=
  List.filterMap_append a b _

theorem downloadIds_map_download (merged : VariantAnalysis)
    (l : List ApiScannedRepository) :
    downloadIds (l.map
        (fun r => MonitorEvent.download (processScannedRepository r) merged))
      = l.map (fun r => r.repository.id) := by
  induction l with
  | nil => rfl
  | cons a as ih =>
    simp only [List.map_cons, downloadIds, List.filterMap_cons] at ih ⊢
    rw [ih]
    rfl

theorem downloadIds_iterationEvents (reported : List Nat) (snap : ApiSnapshot)
    (merged : VariantAnalysis) :
    downloadIds (iterationEvents reported snap merged)
      = ((snapshotDelta reported snap).filter
            (fun r => r.analysisStatus = ApiRepoStatus.succeeded)).map
          (fun r => r.repository.id) := by
  unfold iterationEvents
  rw [downloadIds_append, downloadIds_map_download]
  simp [downloadIds]

theorem mem_iteration_downloadIds (reported : List Nat) (snap : ApiSnapshot)
    (merged : VariantAnalysis) (n : Nat) :
    n ∈ downloadIds (iterationEvents reported snap merged)
      ↔ succeededIn snap n ∧ n ∉ reported := by
  rw [downloadIds_iterationEvents]
  simp only [List.mem_map, List.mem_filter, snapshotDelta, succeededIn,
    Bool.and_eq_true, decide_eq_true_eq, Bool.not_eq_true']
  constructor
  · rintro ⟨r, ⟨⟨hr, _, hcont⟩, hsucc⟩, rfl⟩
    refine ⟨⟨r, hr, rfl, hsucc⟩, ?_⟩
    simpa using hcont
  · rintro ⟨⟨r, hr, rfl, hsucc⟩, hrep⟩
    refine ⟨r, ⟨⟨hr, ?_, ?_⟩, hsucc⟩, rfl⟩
    · rw [hsucc]; rfl
    · simpa using hrep

theorem iteration_downloadIds_nodup (reported : List Nat) (snap : ApiSnapshot)
    (merged : VariantAnalysis)
    (hnodup : (snap.scannedRepositories.map (fun r => r.repository.id)).Nodup) :
    (downloadIds (iterationEvents reported snap merged)).Nodup := by
  rw [downloadIds_iterationEvents]
  exact hnodup.sublist
    (((List.filter_sublist _).trans (List.filter_sublist _)).map _)

theorem iteration_downloadIds_subset_deltaIds (reported : List Nat)
    (snap : ApiSnapshot) (merged : VariantAnalysis) (n : Nat)
    (h : n ∈ downloadIds (iterationEvents reported snap merged)) :
    n ∈ deltaIds reported snap := by
  rw [downloadIds_iterationEvents] at h
  rcases List.mem_map.mp h with ⟨r, hr, rfl⟩
  exact List.mem_map_of_mem _ ((List.filter_sublist _).subset hr)

theorem monitorLoop_nil_events (fuel : Nat) (cancels : List Bool)
    (job : VariantAnalysis) (reported : List Nat) :
    (monitorLoop fuel cancels [] job reported).events = [] := by
  cases fuel with
  | zero => rfl
  | succ m =>
    cases cancels with
    | nil => simp [monitorLoop]
    | cons b bs => cases b <;> simp [monitorLoop]

theorem monitorLoop_downloads_nodup :
    ∀ (fuel : Nat) (cancels : List Bool) (polls : List ApiSnapshot)
      (job : VariantAnalysis) (reported : List Nat),
      (∀ s ∈ polls, (s.scannedRepositories.map (fun r => r.repository.id)).Nodup) →
      (downloadIds (monitorLoop fuel cancels polls job reported).events).Nodup
      ∧ ∀ n ∈ downloadIds (monitorLoop fuel cancels polls job reported).events,
          n ∉ reported := by
  intro fuel
  induction fuel with
  | zero => intro cancels polls job reported _; simp [monitorLoop, downloadIds]
  | succ m ih =>
    intro cancels polls job reported hnodup
    cases hc : cancels.headD false
    all_goals rw [List.headD_eq_head?] at hc
    case true => simp [monitorLoop, hc, downloadIds]
    case false =>
    cases polls with
    | nil => simp [monitorLoop, hc, downloadIds]
    | cons snap rest =>
      by_cases hf : snap.status = ApiStatus.failed
      · simp [monitorLoop, hc, hf, downloadIds]
      · have hsnap := hnodup snap (List.mem_cons_self snap rest)
        cases ht : snap.status.isTerminal
        case neg.true =>
          have heq : (monitorLoop (m + 1) cancels (snap :: rest) job reported).events
              = iterationEvents reported snap (processUpdatedVariantAnalysis job snap) := by
            simp [monitorLoop, hc, hf, ht]
          rw [heq]
          exact ⟨iteration_downloadIds_nodup reported snap _ hsnap,
            fun n hn => ((mem_iteration_downloadIds reported snap _ n).mp hn).2⟩
        case neg.false =>
          have heq : (monitorLoop (m + 1) cancels (snap :: rest) job reported).events
              = iterationEvents reported snap (processUpdatedVariantAnalysis job snap)
                ++ (monitorLoop m cancels.tail rest
                      (processUpdatedVariantAnalysis job snap)
                      (reported ++ deltaIds reported snap)).events := by
            simp [monitorLoop, hc, hf, ht]
          obtain ⟨ihn, ihr⟩ := ih cancels.tail rest
            (processUpdatedVariantAnalysis job snap)
            (reported ++ deltaIds reported snap)
            (fun s hs => hnodup s (List.mem_cons_of_mem snap hs))
          rw [heq, downloadIds_append]
          constructor
          · refine List.Nodup.append
              (iteration_downloadIds_nodup reported snap _ hsnap) ihn ?_
            intro n hn hn'
            have hdelta := iteration_downloadIds_subset_deltaIds reported snap _ n hn
            have := ihr n hn'
            exact this (List.mem_append_right reported hdelta)
          · intro n hn
            rcases List.mem_append.mp hn with h | h
            · exact ((mem_iteration_downloadIds reported snap _ n).mp h).2
            · intro hrep
              exact ihr n h (List.mem_append_left _ hrep)


theorem mem_succIds (s : ApiSnapshot) (n : Nat) :
    n ∈ succIds s ↔ succeededIn s n := by
  simp only [succIds, succeededIn, List.mem_toFinset, List.mem_map,
    List.mem_filter, decide_eq_true_eq]
  constructor
  · rintro ⟨r, ⟨hr, hst⟩, rfl⟩
    exact ⟨r, hr, rfl, hst⟩
  · rintro ⟨r, hr, rfl, hst⟩
    exact ⟨r, ⟨hr, hst⟩, rfl⟩

theorem everSucceededIds_cons (s : ApiSnapshot) (rest : List ApiSnapshot) :
    everSucceededIds (s :: rest) = succIds s ∪ everSucceededIds rest := rfl

theorem mem_everSucceededIds (polls : List ApiSnapshot) (n : Nat) :
    n ∈ everSucceededIds polls ↔ ∃ s ∈ polls, succeededIn s n := by
  induction polls with
  | nil => simp [everSucceededIds]
  | cons s rest ih =>
    rw [everSucceededIds_cons]
    simp [Finset.mem_union, mem_succIds, ih]

theorem mem_deltaIds (reported : List Nat) (snap : ApiSnapshot) (n : Nat) :
    n ∈ deltaIds reported snap
      ↔ (succeededIn snap n ∨ failedIn snap n) ∧ n ∉ reported := by
  simp only [deltaIds, snapshotDelta, List.mem_map, List.mem_filter,
    Bool.and_eq_true, Bool.not_eq_true']
  constructor
  · rintro ⟨r, ⟨hr, hterm, hcont⟩, rfl⟩
    have hnotrep : r.repository.id ∉ reported := by simpa using hcont
    cases hst : r.analysisStatus with
    | succeeded => exact ⟨Or.inl ⟨r, hr, rfl, hst⟩, hnotrep⟩
    | failed => exact ⟨Or.inr ⟨r, hr, rfl, hst⟩, hnotrep⟩
    | pending => rw [hst] at hterm; exact absurd hterm (by decide)
    | inProgress => rw [hst] at hterm; exact absurd hterm (by decide)
  · rintro ⟨hsf, hrep⟩
    rcases hsf with ⟨r, hr, rfl, hst⟩ | ⟨r, hr, rfl, hst⟩ <;>
      refine ⟨r, ⟨hr, by rw [hst]; rfl, by simpa using hrep⟩, rfl⟩

theorem monitorLoop_downloads_toFinset :
    ∀ (polls : List ApiSnapshot) (fuel : Nat) (cancels : List Bool)
      (job : VariantAnalysis) (reported : List Nat),
      polls.length ≤ fuel →
      (∀ b ∈ cancels, b = false) →
      (∀ s ∈ polls, s.status ≠ ApiStatus.failed) →
      (∀ s ∈ polls.dropLast, s.status = ApiStatus.inProgress) →
      polls.Pairwise noFailThenSucceed →
      (downloadIds (monitorLoop fuel cancels polls job reported).events).toFinset
        = everSucceededIds polls \ reported.toFinset := by
  intro polls
  induction polls with
  | nil =>
    intro fuel cancels job reported _ _ _ _ _
    rw [monitorLoop_nil_events]
    simp [downloadIds, everSucceededIds]
  | cons snap rest ih =>
    intro fuel cancels job reported hfuel hcancel hnofail hlast hpw
    obtain ⟨m, rfl⟩ : ∃ m, fuel = m + 1 := ⟨fuel - 1, by
      simp only [List.length_cons] at hfuel; omega⟩
    have hc : cancels.headD false = false := headD_false_of_all_false hcancel
    rw [List.headD_eq_head?] at hc
    have hf : ¬ snap.status = ApiStatus.failed := hnofail snap (List.mem_cons_self _ _)
    obtain ⟨hpwhead, hpwtail⟩ := List.pairwise_cons.mp hpw
    cases ht : snap.status.isTerminal
    case true =>
      cases rest with
      | cons b bs =>
        have : snap.status = ApiStatus.inProgress := by
          apply hlast
          simp [List.dropLast]
        rw [this] at ht
        exact absurd ht (by decide)
      | nil =>
        have heq : (monitorLoop (m + 1) cancels [snap] job reported).events
            = iterationEvents reported snap (processUpdatedVariantAnalysis job snap) := by
          simp [monitorLoop, hc, hf, ht]
        rw [heq]
        apply Finset.ext
        intro n
        rw [everSucceededIds_cons]
        simp only [List.mem_toFinset, mem_iteration_downloadIds, Finset.mem_sdiff,
          Finset.mem_union, mem_succIds]
        simp [everSucceededIds]
    case false =>
      have heq : (monitorLoop (m + 1) cancels (snap :: rest) job reported).events
          = iterationEvents reported snap (processUpdatedVariantAnalysis job snap)
            ++ (monitorLoop m cancels.tail rest (processUpdatedVariantAnalysis job snap)
                  (reported ++ deltaIds reported snap)).events := by
        simp [monitorLoop, hc, hf, ht]
      have hlast' : ∀ s ∈ rest.dropLast, s.status = ApiStatus.inProgress := by
        intro s hs
        apply hlast
        cases rest with
        | nil => simp at hs
        | cons b bs =>
          rw [List.dropLast_cons₂]
          exact List.mem_cons_of_mem _ hs
      have htail : ∀ b ∈ cancels.tail, b = false := by
        intro b hb
        cases cancels with
        | nil => simp at hb
        | cons c cs => exact hcancel b (List.mem_cons_of_mem _ hb)
      have ihe := ih m cancels.tail (processUpdatedVariantAnalysis job snap)
        (reported ++ deltaIds reported snap)
        (by simp only [List.length_cons] at hfuel; omega)
        htail
        (fun s hs => hnofail s (List.mem_cons_of_mem _ hs))
        hlast'
        hpwtail
      rw [heq, downloadIds_append, List.toFinset_append, ihe]
      apply Finset.ext
      intro n
      rw [everSucceededIds_cons]
      simp only [Finset.mem_union, Finset.mem_sdiff, List.mem_toFinset,
        mem_iteration_downloadIds, mem_succIds, List.mem_append, not_or]
      constructor
      · rintro (⟨hs, hrep⟩ | ⟨hr, hrep, hdelta⟩)
        · exact ⟨Or.inl hs, hrep⟩
        · exact ⟨Or.inr hr, hrep⟩
      · rintro ⟨hs | hr, hrep⟩
        · exact Or.inl ⟨hs, hrep⟩
        · by_cases hsucc : succeededIn snap n
          · exact Or.inl ⟨hsucc, hrep⟩
          · refine Or.inr ⟨hr, hrep, ?_⟩
            intro hdelta
            rcases (mem_deltaIds reported snap n).mp hdelta with ⟨hsf, _⟩
            rcases hsf with hsf | hsf
            · exact hsucc hsf
            · rcases (mem_everSucceededIds rest n).mp hr with ⟨t, htmem, htsucc⟩
              rcases hsf with ⟨r, hrmem, rfl, hrst⟩
              exact hpwhead t htmem r hrmem hrst htsucc

-- ===== C1 =====

/-- C1: over a monitoring run (unique repository ids per snapshot, no
cancellation, no top-level failure, only the last snapshot possibly
terminal, fuel covering every snapshot, and no repository reported
failed before being reported succeeded), each repository is
download-triggered at most once — even across consecutive snapshots
that keep reporting it Succeeded — and the number of download triggers
equals the number of distinct repositories that ever reach Succeeded. -/
theorem monitor_downloads_once_per_succeeded_repo (job : VariantAnalysis)
    (cancels : List Bool) (polls : List ApiSnapshot) (fuel : Nat)
    (hnodup : ∀ s ∈ polls, (s.scannedRepositories.map (fun r => r.repository.id)).Nodup)
    (hfuel : polls.length ≤ fuel)
    (hcancel : ∀ b ∈ cancels, b = false)
    (hnofail : ∀ s ∈ polls, s.status ≠ ApiStatus.failed)
    (hlast : ∀ s ∈ polls.dropLast, s.status = ApiStatus.inProgress)
    (hmono : polls.Pairwise noFailThenSucceed) :
    (downloadIds (monitorVariantAnalysis job cancels polls fuel).events).Nodup
    ∧ (downloadIds (monitorVariantAnalysis job cancels polls fuel).events).toFinset
        = everSucceededIds polls
    ∧ (downloadIds (monitorVariantAnalysis job cancels polls fuel).events).length
        = (everSucceededIds polls).card := by
  have h1 := (monitorLoop_downloads_nodup fuel cancels polls job [] hnodup).1
  have h2 := monitorLoop_downloads_toFinset polls fuel cancels job [] hfuel hcancel
    hnofail hlast hmono
  simp only [List.toFinset_nil, Finset.sdiff_empty] at h2
  refine ⟨h1, h2, ?_⟩
  rw [← h2, List.toFinset_card_of_nodup h1]
  rfl

theorem monitor_downloads_once_per_succeeded_repo_witness :
    (downloadIds (monitorVariantAnalysis fixtureJob [] fourPolls 4).events).Nodup
    ∧ (downloadIds (monitorVariantAnalysis fixtureJob [] fourPolls 4).events).toFinset
        = everSucceededIds fourPolls
    ∧ (downloadIds (monitorVariantAnalysis fixtureJob [] fourPolls 4).events).length
        = (everSucceededIds fourPolls).card :=
  monitor_downloads_once_per_succeeded_repo fixtureJob [] fourPolls 4
    (by decide) (by decide) (by decide) (by decide) (by decide) (by decide)
